import Mathlib

/-!
Verification development for the mini-agent skill registry
(`parse_skill.py` and `skills.py`).

Python strings are modelled as Lean `String` (operated on through their
`List Char` data).  Python exceptions are modelled by `Except PyErr`.
The two regular expressions of `parse_skill.py` are embedded as explicit
scanners whose semantics (including the backtracking behaviour of
`\s+` across newlines in the heading pattern) follow CPython's `re`
module; recursion over the input uses an explicit fuel argument equal to
the input length, which is always sufficient because every step consumes
at least one character.

External effects (the shell, the filesystem, `json.loads`) are passed in
as explicit parameters: the shell is a function from a command string to
its process result, the filesystem is an association list from path to
contents, and `json.loads` is an abstract decoder supplied by the
runtime.
-/

/-- Python exception values that the modelled code can raise.
`str(e)` of each is given by `pyStrErr`. -/
inductive PyErr where
  | valueError (msg : String)
  | nameError (name : String)
  | keyError (key : String)
  | fileNotFoundError (path : String)
  deriving DecidableEq, Repr

/-- Python `str(e)` for the exceptions above: `ValueError` prints its
message, `NameError('x')` prints `name 'x' is not defined`, `KeyError`
prints the repr of its key, `FileNotFoundError` prints errno text. -/
def pyStrErr : PyErr → String
  | .valueError msg => msg
  | .nameError name => "name \x27" ++ name ++ "\x27 is not defined"
  | .keyError key => "\x27" ++ key ++ "\x27"
  | .fileNotFoundError path => "[Errno 2] No such file or directory: \x27" ++ path ++ "\x27"

/-- The characters matched by `\s` in CPython's `re` (ASCII range), which
is also the set stripped by `str.strip()`. -/
def isPySpace (c : Char) : Bool :=
  c == ' ' || c == '\t' || c == '\n' || c == '\r' || c == '\x0b' || c == '\x0c'

/-- The characters matched by `\w` (ASCII range). -/
def isWordChar (c : Char) : Bool :=
  c.isAlphanum || c == '_'

/-- Python `str.strip()` on the character list. -/
def trimChars (cs : List Char) : List Char :=
  ((cs.dropWhile isPySpace).reverse.dropWhile isPySpace).reverse

/-- Python `str.strip()`. -/
def pystrip (s : String) : String := ⟨trimChars s.data⟩

/-- Python `str.lower()` (ASCII). -/
def pylower (s : String) : String := ⟨s.data.map Char.toLower⟩

/-- Python `str.split('\n')` on the character list. -/
def splitLines : List Char → List (List Char)
  | [] => [[]]
  | c :: cs =>
    let rest := splitLines cs
    if c = '\n' then [] :: rest
    else
      match rest with
      | l :: ls => (c :: l) :: ls
      | [] => [[c]]

/-- The list comprehension
`[line.strip() for line in s.split('\n') if line.strip()]` used by both
`parse_description` and `parse_usage`. -/
def stripNonblankLines (s : String) : List String :=
  (((splitLines s.data).map trimChars).filter (fun l => !l.isEmpty)).map (fun l => (⟨l⟩ : String))

/-- Python `' '.join(lines)`. -/
def joinSpace : List String → String
  | [] => ""
  | [s] => s
  | s :: rest => s ++ " " ++ joinSpace rest

/-- Python dict assignment `d[k] = v`: replaces in place when the key is
present, appends otherwise (insertion order preserved). -/
def dictInsert {α : Type} (d : List (String × α)) (k : String) (v : α) : List (String × α) :=
  match d with
  | [] => [(k, v)]
  | (k0, v0) :: rest => if k0 = k then (k0, v) :: rest else (k0, v0) :: dictInsert rest k v

/-- Python dict lookup `d[k]` / `d.get(k)`. -/
def dictLookup {α : Type} (d : List (String × α)) (k : String) : Option α :=
  match d with
  | [] => none
  | (k0, v0) :: rest => if k0 = k then some v0 else dictLookup rest k

/-- Python `k in d` for a dict. -/
def dictMem {α : Type} (d : List (String × α)) (k : String) : Bool :=
  d.any (fun p => p.1 == k)

/-- One `\{(\w+?)\}` occurrence scan step of `re.findall` as used on the
command template: at a `{`, a nonempty run of word characters directly
followed by `}` is a capture; otherwise scanning advances one character.
The fuel equals the remaining input length, which suffices because every
step consumes at least one character. -/
def findPlaceholdersAux : Nat → List Char → List String
  | 0, _ => []
  | _, [] => []
  | fuel + 1, c :: rest =>
    if c = '{' then
      let name := rest.takeWhile isWordChar
      let after := rest.dropWhile isWordChar
      match after with
      | '}' :: rest2 =>
        if name.isEmpty then findPlaceholdersAux fuel rest
        else (⟨name⟩ : String) :: findPlaceholdersAux fuel rest2
      | _ => findPlaceholdersAux fuel rest
    else findPlaceholdersAux fuel rest

/-- `re.findall(r'\{(\w+?)\}', command_template)`: all placeholder
occurrences in order of appearance, duplicates retained. -/
def findPlaceholders (s : String) : List String :=
  findPlaceholdersAux s.data.length s.data

/-- `re.match(r'\s*\-\s*(\w+)\s*:\s*(.*)', line)`: recognizes a dash
line and returns the two captured groups, `None` otherwise. -/
def matchArgLine (line : String) : Option (String × String) :=
  let cs := line.data.dropWhile isPySpace
  match cs with
  | '-' :: cs1 =>
    let cs2 := cs1.dropWhile isPySpace
    let key := cs2.takeWhile isWordChar
    if key.isEmpty then none
    else
      let cs3 := (cs2.dropWhile isWordChar).dropWhile isPySpace
      match cs3 with
      | ':' :: cs4 => some ((⟨key⟩ : String), (⟨(cs4.dropWhile isPySpace).takeWhile (· ≠ '\n')⟩ : String))
      | _ => none
  | _ => none

/-- The `arg_descriptions` loop of `parse_usage`: each matching dash line
stores `key.strip() ↦ desc.strip()` in the dict. -/
def parseArgDescriptions (ls : List String) : List (String × String) :=
  ls.foldl
    (fun acc line =>
      match matchArgLine line with
      | some (k, d) => dictInsert acc (pystrip k) (pystrip d)
      | none => acc)
    []

/-- The validation loop of `parse_usage`: the first placeholder without a
description raises `ValueError`, ending the parse at once. -/
def checkPlaceholders (args : List (String × String)) : List String → Except PyErr Unit
  | [] => .ok ()
  | p :: ps =>
    if dictMem args p then checkPlaceholders args ps
    else .error (.valueError ("Missing description for parameter: " ++ p))

/-- A property entry of the parameter schema: `{type: 'string', description}`. -/
structure PropSchema where
  type : String
  description : String
  deriving DecidableEq, Repr

/-- The `parameters` object of a tool schema. -/
structure ParamSchema where
  type : String
  properties : List (String × PropSchema)
  required : List String
  deriving DecidableEq, Repr

/-- The `function` object of a tool schema. -/
structure ToolFunction where
  name : String
  description : String
  parameters : ParamSchema
  deriving DecidableEq, Repr

/-- A complete tool schema `{type: 'function', function: {...}}`. -/
structure ToolCall where
  type : String
  function : ToolFunction
  deriving DecidableEq, Repr

/-- The dict returned by `parse_usage` (before `parse_skill` fills in the
function name and description). -/
structure UsageSkill where
  template : String
  parameters : ParamSchema
  deriving DecidableEq, Repr

/-- `parse_usage`: first non-blank stripped line is the command template;
placeholders are validated against the dash-line descriptions; the
returned schema's `required` list is exactly the `re.findall` result. -/
def parse_usage (usage : String) : Except PyErr UsageSkill :=
  match stripNonblankLines usage with
  | [] => .error (.valueError "Usage section is empty")
  | command_template :: restLines =>
    let placeholders := findPlaceholders command_template
    let arg_descriptions := parseArgDescriptions restLines
    match checkPlaceholders arg_descriptions placeholders with
    | .error e => .error e
    | .ok _ =>
      .ok
        { template := command_template
          parameters :=
            { type := "object"
              properties :=
                (arg_descriptions.filter (fun kv => placeholders.contains kv.1)).map
                  (fun kv => (kv.1, { type := "string", description := kv.2 }))
              required := placeholders } }

/-- `parse_description`: strip blank lines, join with single spaces,
trim; empty results raise `ValueError`. -/
def parse_description (description : String) : Except PyErr String :=
  match stripNonblankLines description with
  | [] => .error (.valueError "Description section is empty")
  | lines =>
    let result := pystrip (joinSpace lines)
    if result = "" then .error (.valueError "Description section is empty")
    else .ok result

/-- A single match attempt of `(?m)^(#{1,5}\s+.+)$` at a line start,
with CPython backtracking semantics: 1–5 `#` (a longer run fails), then
a nonempty `\s+` run (greedy, may cross newlines), then `.+` up to the
next newline or end.  When the whitespace run reaches the end of the
input, `\s+` backtracks so that `.+` can take the last non-newline
whitespace character.  Returns the matched text and the remaining
input. -/
def headingMatchAt (s : List Char) : Option (List Char × List Char) :=
  let hashes := s.takeWhile (· == '#')
  if hashes.length = 0 ∨ 5 < hashes.length then none
  else
    let afterH := s.dropWhile (· == '#')
    let ws := afterH.takeWhile isPySpace
    let afterW := afterH.dropWhile isPySpace
    if ws.length = 0 then none
    else
      match afterW with
      | [] =>
        let keep := (ws.reverse.dropWhile (· == '\n')).reverse
        if 2 ≤ keep.length then some (hashes ++ keep, ws.drop keep.length) else none
      | _ :: _ =>
        some (hashes ++ ws ++ afterW.takeWhile (· ≠ '\n'), afterW.dropWhile (· ≠ '\n'))

/-- The `re.split` scan: left-to-right over the document, attempting the
heading pattern at every line start, producing the interleaved list of
text segments and matched headings.  Fuel equals input length (each step
consumes at least one character). -/
def scanHeadingsAux : Nat → List Char → List Char → Bool → List (List Char)
  | 0, s, cur, _ => [cur.reverse ++ s]
  | fuel + 1, s, cur, atStart =>
    match (if atStart then headingMatchAt s else none) with
    | some (m, rest) => cur.reverse :: m :: scanHeadingsAux fuel rest [] false
    | none =>
      match s with
      | [] => [cur.reverse]
      | c :: rest => scanHeadingsAux fuel rest (c :: cur) (c == '\n')

/-- `re.split(r'(?m)^(#{1,5}\s+.+)$', md_content)`. -/
def splitParts (md : String) : List (List Char) :=
  scanHeadingsAux md.data.length md.data [] true

/-- `re.sub(r'^#{1,5}\s+', '', title)`: strips one leading run of 1–5
hashes plus the following whitespace (anchored, at most one
substitution). -/
def stripTitleHash (t : List Char) : List Char :=
  let hashes := t.takeWhile (· == '#')
  if 1 ≤ hashes.length ∧ hashes.length ≤ 5 then
    let afterH := t.dropWhile (· == '#')
    if (afterH.takeWhile isPySpace).length ≥ 1 then afterH.dropWhile isPySpace else t
  else t

/-- Normalized section key: hashes stripped, trimmed, lower-cased. -/
def sectionTitle (t : List Char) : String :=
  pylower ⟨trimChars (stripTitleHash t)⟩

/-- The pairing loop of `split_markdown_by_titles`: consecutive
(title, content) pairs; a trailing unpaired element is dropped. -/
def buildSections (acc : List (String × String)) : List (List Char) → List (String × String)
  | t :: c :: rest => buildSections (dictInsert acc (sectionTitle t) (⟨trimChars c⟩ : String)) rest
  | _ => acc

/-- `split_markdown_by_titles`: split at headings, pop the first segment
only when it strips to empty, then pair titles with contents. -/
def split_markdown_by_titles (md : String) : List (String × String) :=
  let parts := splitParts md
  let parts2 :=
    match parts with
    | [] => parts
    | p0 :: rest => if trimChars p0 = [] then rest else parts
  buildSections [] parts2

/-- The result of `parse_skill`: the popped command template together
with the assembled tool schema. -/
structure ParsedSkill where
  template : String
  tool_call : ToolCall
  deriving DecidableEq, Repr

/-- `parse_skill`: split the SKILL.md document, require `usage` and
`description` sections, parse both and attach the directory name. -/
def parse_skill (dirName : String) (md : String) : Except PyErr ParsedSkill :=
  let sections := split_markdown_by_titles md
  match dictLookup sections "usage" with
  | none => .error (.valueError "No usage found in SKILL.md")
  | some usageSec =>
    match dictLookup sections "description" with
    | none => .error (.valueError "No description found in SKILL.md")
    | some descSec =>
      match parse_description descSec with
      | .error e => .error e
      | .ok description =>
        match parse_usage usageSec with
        | .error e => .error e
        | .ok skill =>
          .ok
            { template := skill.template
              tool_call :=
                { type := "function"
                  function :=
                    { name := dirName
                      description := description
                      parameters := skill.parameters } } }

/-- Result of `subprocess.run(command, shell=True, capture_output=True,
text=True)`: the exit code and the captured streams. -/
structure ProcResult where
  returncode : Int
  stdout : String
  stderr : String
  deriving DecidableEq, Repr

/-- A Python value as returned by a skill handler: either `None` (from
`write_file`, which has no return statement) or a string. -/
inductive PyValue where
  | none
  | str (s : String)
  deriving DecidableEq, Repr

/-- Python `str()` applied to a handler result: `str(None) = "None"`. -/
def pyStr : PyValue → String
  | .none => "None"
  | .str s => s

/-- A piece of an f-string: literal text or an interpolated name that is
looked up in the enclosing scope when the f-string is evaluated. -/
inductive FPart where
  | lit (s : String)
  | var (name : String)
  deriving DecidableEq, Repr

/-- Left-to-right evaluation of an f-string: a name absent from the
scope raises `NameError` at the point it is interpolated. -/
def evalFString (locals : List (String × String)) : List FPart → Except PyErr String
  | [] => .ok ""
  | .lit s :: rest => (evalFString locals rest).map (fun t => s ++ t)
  | .var n :: rest =>
    match dictLookup locals n with
    | some v => (evalFString locals rest).map (fun t => v ++ t)
    | none => .error (.nameError n)

/-- Built-in skill `exec_command`: runs the command through the shell and
formats the result with two f-strings.  Both f-strings interpolate the
name `stderror`, which is not bound in the function (the local variable
is `stderr`), so evaluating either raises `NameError`. -/
def exec_command (shell : String → ProcResult) (kw : List (String × String)) : Except PyErr String :=
  match dictLookup kw "command" with
  | none => .error (.valueError "Missing parameter: command")
  | some command =>
    let result := shell command
    let exit_code := result.returncode
    let stdout := result.stdout
    let stderr := result.stderr
    let locals :=
      [("command", command), ("exit_code", toString exit_code),
       ("stdout", stdout), ("stderr", stderr)]
    if exit_code ≠ 0 then
      evalFString locals
        [.lit "Error ", .var "exit_code", .lit ":\n", .var "stdout", .lit "\n", .var "stderror"]
    else
      evalFString locals [.var "stdout", .lit "\n", .var "stderror"]

/-- Built-in skill `read_file` over the filesystem model: a missing
`file_path` argument raises `ValueError`; a path not in the filesystem
raises `FileNotFoundError` at `open`. -/
def read_file (fs : List (String × String)) (kw : List (String × String)) : Except PyErr String :=
  match dictLookup kw "file_path" with
  | none => .error (.valueError "Missing parameter: file_path")
  | some file_path =>
    match dictLookup fs file_path with
    | some content => .ok content
    | none => .error (.fileNotFoundError file_path)

/-- Built-in skill `write_file`: checks `file_path` then `content`,
writes (overwriting), and falls off the end of the function (returning
`None`); the new filesystem is returned. -/
def write_file (fs : List (String × String)) (kw : List (String × String)) :
    Except PyErr (List (String × String)) :=
  match dictLookup kw "file_path" with
  | none => .error (.valueError "Missing parameter: file_path")
  | some file_path =>
    match dictLookup kw "content" with
    | none => .error (.valueError "Missing parameter: content")
    | some content => .ok (dictInsert fs file_path content)

/-- One scan step of `str.format` (`templ.format(**kw)`): `\x7b\x7b` and
`\x7d\x7d` are literal braces, `\x7bfield\x7d` is replaced by the bound
argument (raising `KeyError` when absent), a lone closing brace or an
unterminated field raises `ValueError`.  Fields are plain names, as
produced by the skill templates.  The accumulator holds the output in
reverse; fuel equals the remaining input length. -/
def pyFormatAux : Nat → List (String × String) → List Char → List Char → Except PyErr (List Char)
  | 0, _, acc, s => .ok (acc.reverse ++ s)
  | fuel + 1, kw, acc, s =>
    match s with
    | [] => .ok acc.reverse
    | '{' :: rest =>
      match rest with
      | '{' :: rest2 => pyFormatAux fuel kw ('{' :: acc) rest2
      | _ =>
        let field := rest.takeWhile (· ≠ '}')
        match rest.dropWhile (· ≠ '}') with
        | '}' :: rest2 =>
          match dictLookup kw ⟨field⟩ with
          | some v => pyFormatAux fuel kw (v.data.reverse ++ acc) rest2
          | none => .error (.keyError ⟨field⟩)
        | _ => .error (.valueError "expected \x27\x7d\x27 before end of string")
    | '}' :: rest =>
      match rest with
      | '}' :: rest2 => pyFormatAux fuel kw ('}' :: acc) rest2
      | _ => .error (.valueError "Single \x27\x7d\x27 encountered in format string")
    | c :: rest => pyFormatAux fuel kw (c :: acc) rest

/-- `templ.format(**kw)`. -/
def pyFormat (templ : String) (kw : List (String × String)) : Except PyErr String :=
  (pyFormatAux templ.data.length kw [] templ.data).map (fun cs => (⟨cs⟩ : String))

/-- The executable handler bound to a registry entry: one of the three
built-in functions, or the `run_skill` closure produced by
`make_run_skill`, closed over its command template. -/
inductive Handler where
  | read_file
  | write_file
  | exec_command
  | templated (template : String)
  deriving DecidableEq, Repr

/-- Invoking `skill.run(**args)`: built-ins call the functions above; a
templated handler substitutes the arguments into its template and
delegates to `exec_command`.  Returns the handler's value and the
(possibly updated) filesystem. -/
def runHandler (shell : String → ProcResult) (fs : List (String × String))
    (h : Handler) (kw : List (String × String)) :
    Except PyErr (PyValue × List (String × String)) :=
  match h with
  | .read_file => (read_file fs kw).map (fun s => (.str s, fs))
  | .write_file => (write_file fs kw).map (fun fs2 => (.none, fs2))
  | .exec_command => (exec_command shell kw).map (fun s => (.str s, fs))
  | .templated templ =>
    match pyFormat templ kw with
    | .error e => .error e
    | .ok command => (exec_command shell [("command", command)]).map (fun s => (.str s, fs))

/-- A registry entry (`Skill.__init__`). -/
structure Skill where
  name : String
  description : String
  tool_call : ToolCall
  run : Handler
  deriving DecidableEq, Repr

/-- The skill registry (`self._skills`), an insertion-ordered dict. -/
structure SkillManager where
  _skills : List (String × Skill)
  deriving DecidableEq, Repr

/-- `SkillManager._register_skill`: a name already present raises
`ValueError('Duplicate skill: ...')`; otherwise the entry is appended. -/
def _register_skill (skills : List (String × Skill)) (tc : ToolCall) (func : Handler) :
    Except PyErr (List (String × Skill)) :=
  let name := tc.function.name
  let description := tc.function.description
  if dictMem skills name then .error (.valueError ("Duplicate skill: " ++ name))
  else .ok (skills ++ [(name, { name := name, description := description, tool_call := tc, run := func })])

/-- A directory entry from `skills_path.iterdir()`: its base name,
whether it is a directory, and the contents of its `SKILL.md` when that
file exists. -/
structure DirEntry where
  name : String
  isDir : Bool
  skillMd : Option String
  deriving DecidableEq, Repr

/-- Stable ordered insert by entry name (Python `sorted` is a stable
ascending sort; for a directory all names are distinct). -/
def orderedInsertEntry (e : DirEntry) : List DirEntry → List DirEntry
  | [] => [e]
  | x :: xs => if e.name ≤ x.name then e :: x :: xs else x :: orderedInsertEntry e xs

/-- `sorted(skills_path.iterdir())`: paths share the parent directory,
so the order is the lexicographic order of the base names. -/
def sortEntries : List DirEntry → List DirEntry
  | [] => []
  | e :: es => orderedInsertEntry e (sortEntries es)

/-- The loop body of `SkillManager.__init__` for one directory entry:
non-directories and directories without `SKILL.md` are skipped, others
are parsed and registered with a templated handler closed over the
popped template. -/
def loadSkillDir (skills : List (String × Skill)) (e : DirEntry) :
    Except PyErr (List (String × Skill)) :=
  if !e.isDir then .ok skills
  else
    match e.skillMd with
    | none => .ok skills
    | some md =>
      match parse_skill e.name md with
      | .error err => .error err
      | .ok parsed => _register_skill skills parsed.tool_call (.templated parsed.template)

/-- The scan loop of `SkillManager.__init__` over the sorted entries. -/
def loadEntries (skills : List (String × Skill)) : List DirEntry → Except PyErr (List (String × Skill))
  | [] => .ok skills
  | e :: es =>
    match loadSkillDir skills e with
    | .error err => .error err
    | .ok s => loadEntries s es

/-- The hard-coded `read_file` tool schema of `SkillManager.__init__`. -/
def read_file_tool_call : ToolCall :=
  { type := "function"
    function :=
      { name := "read_file"
        description := "Read and return the contents of a file."
        parameters :=
          { type := "object"
            properties := [("file_path", { type := "string", description := "The path to the file to read" })]
            required := ["file_path"] } } }

/-- The hard-coded `write_file` tool schema. -/
def write_file_tool_call : ToolCall :=
  { type := "function"
    function :=
      { name := "write_file"
        description := "Write content to a file."
        parameters :=
          { type := "object"
            properties :=
              [("file_path", { type := "string", description := "The path to the file to write to." }),
               ("content", { type := "string", description := "The content to write to the file." })]
            required := ["file_path", "content"] } } }

/-- The hard-coded `exec_command` tool schema. -/
def exec_command_tool_call : ToolCall :=
  { type := "function"
    function :=
      { name := "exec_command"
        description := "Execute a shell command."
        parameters :=
          { type := "object"
            properties := [("command", { type := "string", description := "The command to execute." })]
            required := ["command"] } } }

/-- `SkillManager.__init__`: scan the sorted skill directories, then
register the three built-ins in fixed order. -/
def SkillManager.init (entries : List DirEntry) : Except PyErr SkillManager :=
  match loadEntries [] (sortEntries entries) with
  | .error err => .error err
  | .ok s0 =>
    match _register_skill s0 read_file_tool_call .read_file with
    | .error err => .error err
    | .ok s1 =>
      match _register_skill s1 write_file_tool_call .write_file with
      | .error err => .error err
      | .ok s2 =>
        match _register_skill s2 exec_command_tool_call .exec_command with
        | .error err => .error err
        | .ok s3 => .ok ⟨s3⟩

/-- The external services dispatch depends on: the shell and the
`json.loads` decoder for the call's argument string. -/
structure PyRuntime where
  shell : String → ProcResult
  json_loads : String → Except PyErr (List (String × String))

/-- A call request: `tool_call.function.name` and the raw JSON text
`tool_call.function.arguments`. -/
structure ToolCallRequest where
  name : String
  arguments : String
  deriving DecidableEq, Repr

/-- `SkillManager._run_skill`: decode the arguments, look the skill up
(raising `ValueError('Skill ... not found.')` when absent) and invoke
its handler. -/
def _run_skill (rt : PyRuntime) (sm : SkillManager) (fs : List (String × String))
    (tc : ToolCallRequest) : Except PyErr (PyValue × List (String × String)) :=
  match rt.json_loads tc.arguments with
  | .error e => .error e
  | .ok args =>
    match dictLookup sm._skills tc.name with
    | none => .error (.valueError ("Skill " ++ tc.name ++ " not found."))
    | some skill => runHandler rt.shell fs skill.run args

/-- `SkillManager.run_skill`: `str()` of the successful result, or the
caught exception converted to an `Error: `-prefixed string (in which
case the filesystem is unchanged in this model: every failing path
fails before writing). -/
def run_skill (rt : PyRuntime) (sm : SkillManager) (fs : List (String × String))
    (tc : ToolCallRequest) : String × List (String × String) :=
  match _run_skill rt sm fs tc with
  | .ok (v, fs2) => (pyStr v, fs2)
  | .error e => ("Error: " ++ pyStrErr e, fs)

/-- `SkillManager.get_tool_calls` (before JSON serialization): the tool
schemas in registration order. -/
def get_tool_calls (sm : SkillManager) : List ToolCall :=
  sm._skills.map (fun p => p.2.tool_call)

/-- The SKILL.md document of the end-to-end `greet` example. -/
def greetSkillMd : String :=
  "# description\nSay hello\n# usage\necho hello \x7bname\x7d\n- name: the name to greet\n"

/-- The `greet` skill directory entry. -/
def greetEntry : DirEntry := { name := "greet", isDir := true, skillMd := some greetSkillMd }

/-- The registry loaded from a root containing only the `greet` skill
directory (the load succeeds, so the match takes its `ok` branch). -/
def greetManager : SkillManager :=
  match SkillManager.init [greetEntry] with
  | .ok m => m
  | .error _ => ⟨[]⟩

/-- The registry loaded from an empty root: just the three built-ins. -/
def emptyManager : SkillManager :=
  match SkillManager.init [] with
  | .ok m => m
  | .error _ => ⟨[]⟩

/-- The validation loop raises for the first placeholder (in placeholder
order) that has no dash-line description. -/
theorem checkPlaceholders_find_first (args : List (String × String)) (ps : List String) (p : String)
    (h : ps.find? (fun q => !dictMem args q) = some p) :
    checkPlaceholders args ps = .error (.valueError ("Missing description for parameter: " ++ p)) := by
  induction ps with
  | nil => simp at h
  | cons q qs ih =>
    cases hq : dictMem args q with
    | true =>
      rw [List.find?_cons_of_neg _ (by simp [hq])] at h
      simpa [checkPlaceholders, hq] using ih h
    | false =>
      rw [List.find?_cons_of_pos _ (by simp [hq])] at h
      injection h with h
      subst h
      simp [checkPlaceholders, hq]

/-- C1: the claim that `exec_command` on `command: "exit 3"` returns a
result carrying exit code 3 without raising is violated by the code: the
formatting f-string interpolates the unbound name `stderror` (a slip for
the local `stderr`), so the call raises `NameError` instead of
returning. -/
theorem exec_command_exit3_raises (shell : String → ProcResult)
    (h : shell "exit 3" = { returncode := 3, stdout := "", stderr := "" }) :
    exec_command shell [("command", "exit 3")] = .error (.nameError "stderror") := by
  simp [exec_command, dictLookup, h, evalFString, Except.map]

/-- Witness for C1: a shell in which `exit 3` exits with code 3 and
empty streams. -/
theorem exec_command_exit3_raises_witness :
    exec_command (fun _ => { returncode := 3, stdout := "", stderr := "" })
      [("command", "exit 3")] = .error (.nameError "stderror") :=
  exec_command_exit3_raises (fun _ => { returncode := 3, stdout := "", stderr := "" }) rfl

/-- C2 counterexample: on the template `{b} {a} {b}` the produced
`required` list keeps the duplicate occurrence (`re.findall` performs no
deduplication), so it is not `["b", "a"]` as the claim states. -/
theorem parse_usage_required_duplicates_cex :
    (parse_usage "\x7bb\x7d \x7ba\x7d \x7bb\x7d\n- b: bb\n- a: aa").map
        (fun u => u.parameters.required) = .ok ["b", "a", "b"] ∧
    (["b", "a", "b"] : List String) ≠ ["b", "a"] := by
  exact ⟨rfl, by decide⟩

/-- C2 amended: whenever `parse_usage` succeeds, the `required` list is
exactly the list of placeholder occurrences of the command template (the
first non-blank line), in order of appearance, duplicates retained. -/
theorem parse_usage_required_eq_findall (usage t : String) (rest : List String) (u : UsageSkill)
    (hl : stripNonblankLines usage = t :: rest)
    (ho : parse_usage usage = .ok u) :
    u.parameters.required = findPlaceholders t := by
  simp only [parse_usage, hl] at ho
  cases hc : checkPlaceholders (parseArgDescriptions rest) (findPlaceholders t) with
  | error e => rw [hc] at ho; cases ho
  | ok w =>
    rw [hc] at ho
    injection ho with ho
    subst ho
    rfl

/-- Witness data for C2: the duplicate-placeholder usage section. -/
def dupUsage : String := "\x7bb\x7d \x7ba\x7d \x7bb\x7d\n- b: bb\n- a: aa"

/-- The successfully parsed schema of `dupUsage`. -/
def dupParsed : UsageSkill :=
  match parse_usage dupUsage with
  | .ok u => u
  | .error _ => ⟨"", ⟨"object", [], []⟩⟩

/-- Witness for C2 amended, at the template `{b} {a} {b}`. -/
theorem parse_usage_required_eq_findall_witness :
    dupParsed.parameters.required = findPlaceholders "\x7bb\x7d \x7ba\x7d \x7bb\x7d" :=
  parse_usage_required_eq_findall dupUsage "\x7bb\x7d \x7ba\x7d \x7bb\x7d"
    ["- b: bb", "- a: aa"] dupParsed (by decide) rfl

/-- C4 counterexample: non-blank content before the first heading is not
discarded: the splitter pops the leading segment only when it strips to
empty, and otherwise pairs the leading text with the first heading line
as its content, so the `usage` section is lost. -/
theorem split_markdown_leading_content_cex :
    split_markdown_by_titles "hello\n# usage\nbody" = [("hello", "# usage")] ∧
    split_markdown_by_titles "hello\n# usage\nbody" ≠ split_markdown_by_titles "# usage\nbody" := by
  exact ⟨by decide, by decide⟩

/-- C4 amended: a document in which the heading pattern never matches
splits into a single part and yields the empty mapping; whitespace-only
leading content is discarded; non-blank leading content is instead kept
as a key mapped to the first heading line. -/
theorem split_markdown_amended :
    (∀ md : String, splitParts md = [md.data] → split_markdown_by_titles md = []) ∧
    split_markdown_by_titles "  \n# usage\nbody" = [("usage", "body")] ∧
    split_markdown_by_titles "hello\n# usage\nbody" = [("hello", "# usage")] := by
  refine ⟨?_, by decide, by decide⟩
  intro md h
  simp only [split_markdown_by_titles, h]
  split
  · rfl
  · rfl

/-- Witness for C4 amended: a plain document with no heading. -/
theorem split_markdown_amended_witness :
    split_markdown_by_titles "plain text" = [] :=
  split_markdown_amended.1 "plain text" (by decide)

/-- C6: when some placeholder of the command template has no dash-line
description, `parse_usage` fails at once with a `ValueError` naming
exactly the first such placeholder in placeholder order. -/
theorem parse_usage_missing_first (usage t : String) (rest : List String) (p : String)
    (hl : stripNonblankLines usage = t :: rest)
    (hf : (findPlaceholders t).find? (fun q => !dictMem (parseArgDescriptions rest) q) = some p) :
    parse_usage usage = .error (.valueError ("Missing description for parameter: " ++ p)) := by
  have hc := checkPlaceholders_find_first (parseArgDescriptions rest) (findPlaceholders t) p hf
  simp only [parse_usage, hl, hc]

/-- Witness for C6: template `{x} {y}` with no dash lines fails naming
`x`. -/
theorem parse_usage_missing_first_witness :
    parse_usage "\x7bx\x7d \x7by\x7d" = .error (.valueError ("Missing description for parameter: " ++ "x")) :=
  parse_usage_missing_first "\x7bx\x7d \x7by\x7d" "\x7bx\x7d \x7by\x7d" [] "x" (by decide) (by decide)

/-- C5: dispatch never raises: every outcome of `_run_skill` — the
decode, the lookup and the handler all included — is turned by
`run_skill` into either `str(result)` or an `Error: `-prefixed string;
and an unregistered name (with well-formed arguments) yields an error
string containing `not found`. -/
theorem run_skill_never_raises :
    (∀ (rt : PyRuntime) (sm : SkillManager) (fs : List (String × String)) (tc : ToolCallRequest),
       (∃ e, _run_skill rt sm fs tc = .error e ∧
             run_skill rt sm fs tc = ("Error: " ++ pyStrErr e, fs)) ∨
       (∃ v fs2, _run_skill rt sm fs tc = .ok (v, fs2) ∧
             run_skill rt sm fs tc = (pyStr v, fs2))) ∧
    (∀ (rt : PyRuntime) (sm : SkillManager) (fs : List (String × String)) (tc : ToolCallRequest)
       (args : List (String × String)),
       rt.json_loads tc.arguments = .ok args →
       dictLookup sm._skills tc.name = none →
       ∃ pre post, (run_skill rt sm fs tc).1.data = pre ++ "not found".data ++ post) := by
  constructor
  · intro rt sm fs tc
    cases h : _run_skill rt sm fs tc with
    | error e => exact .inl ⟨e, rfl, by simp only [run_skill, h]⟩
    | ok p => exact .inr ⟨p.1, p.2, by simp only [h], by simp only [run_skill, h]⟩
  · intro rt sm fs tc args hj hn
    have h1 : _run_skill rt sm fs tc = .error (.valueError ("Skill " ++ tc.name ++ " not found.")) := by
      simp only [_run_skill, hj, hn]
    refine ⟨"Error: ".data ++ "Skill ".data ++ tc.name.data ++ " ".data, ".".data, ?_⟩
    have hsplit : " not found.".data = " ".data ++ "not found".data ++ ".".data := by decide
    simp only [run_skill, h1, pyStrErr, String.data_append, hsplit, List.append_assoc]
    simp

/-- Witness for C5: dispatching `nope` against the built-in-only
registry with decodable arguments. -/
theorem run_skill_never_raises_witness :
    ∃ pre post,
      (run_skill ⟨fun _ => ⟨0, "", ""⟩, fun _ => .ok []⟩ emptyManager [] ⟨"nope", "x"⟩).1.data
        = pre ++ "not found".data ++ post :=
  run_skill_never_raises.2 ⟨fun _ => ⟨0, "", ""⟩, fun _ => .ok []⟩ emptyManager [] ⟨"nope", "x"⟩ [] rfl rfl

/-- C10: dispatch applies Python `str()` to the handler's return value
(or prefixes the caught exception), so a successful `write_file`
dispatch — whose handler returns `None` — yields the string `"None"`. -/
theorem run_skill_str_of_result :
    (∀ (rt : PyRuntime) (sm : SkillManager) (fs : List (String × String)) (tc : ToolCallRequest)
       (v : PyValue) (fs2 : List (String × String)),
       _run_skill rt sm fs tc = .ok (v, fs2) → run_skill rt sm fs tc = (pyStr v, fs2)) ∧
    (∀ (rt : PyRuntime) (sm : SkillManager) (fs : List (String × String)) (tc : ToolCallRequest)
       (e : PyErr),
       _run_skill rt sm fs tc = .error e → run_skill rt sm fs tc = ("Error: " ++ pyStrErr e, fs)) ∧
    (∀ (rt : PyRuntime) (fs : List (String × String)) (a : String),
       rt.json_loads a = .ok [("file_path", "f.txt"), ("content", "hi")] →
       (run_skill rt emptyManager fs ⟨"write_file", a⟩).1 = "None") := by
  refine ⟨?_, ?_, ?_⟩
  · intro rt sm fs tc v fs2 h
    simp only [run_skill, h]
  · intro rt sm fs tc e h
    simp only [run_skill, h]
  · intro rt fs a hj
    have hlk : dictLookup emptyManager._skills "write_file"
        = some { name := "write_file", description := "Write content to a file.",
                 tool_call := write_file_tool_call, run := .write_file } := rfl
    have h1 : _run_skill rt emptyManager fs ⟨"write_file", a⟩
        = .ok (.none, dictInsert fs "f.txt" "hi") := by
      simp only [_run_skill, hj, hlk, runHandler, write_file, dictLookup, Except.map]
      rfl
    simp only [run_skill, h1, pyStr]

/-- Witness for C10: a concrete runtime whose decoder produces the
`write_file` arguments. -/
theorem run_skill_str_of_result_witness :
    (run_skill ⟨fun _ => ⟨0, "", ""⟩, fun _ => .ok [("file_path", "f.txt"), ("content", "hi")]⟩
        emptyManager [] ⟨"write_file", "x"⟩).1 = "None" :=
  run_skill_str_of_result.2.2
    ⟨fun _ => ⟨0, "", ""⟩, fun _ => .ok [("file_path", "f.txt"), ("content", "hi")]⟩ [] "x" rfl

/-- C3: loading the `greet` skill produces the claimed schema
(`function.name = "greet"`, `required = ["name"]`) and dispatching
`greet` with `name = "World"` does build and run the shell command
`echo hello World`; but instead of the captured stdout the dispatch
returns the error string produced by the `NameError` on the unbound
`stderror` in `exec_command`'s result formatting. -/
theorem greet_end_to_end (rt : PyRuntime) (a : String) (fs : List (String × String))
    (hs : rt.shell "echo hello World" = { returncode := 0, stdout := "hello World\n", stderr := "" })
    (hj : rt.json_loads a = .ok [("name", "World")]) :
    SkillManager.init [greetEntry] = .ok greetManager ∧
    greetManager._skills.map (fun p => p.2.tool_call.function.name)
      = ["greet", "read_file", "write_file", "exec_command"] ∧
    (dictLookup greetManager._skills "greet").map (fun sk => sk.tool_call.function.parameters.required)
      = some ["name"] ∧
    (run_skill rt greetManager fs ⟨"greet", a⟩).1 = "Error: name \x27stderror\x27 is not defined" ∧
    (run_skill rt greetManager fs ⟨"greet", a⟩).1 ≠ "hello World\n" := by
  have hlk : dictLookup greetManager._skills "greet"
      = some { name := "greet", description := "Say hello"
               tool_call :=
                 { type := "function"
                   function :=
                     { name := "greet", description := "Say hello"
                       parameters :=
                         { type := "object"
                           properties := [("name", { type := "string", description := "the name to greet" })]
                           required := ["name"] } } }
               run := .templated "echo hello \x7bname\x7d" } := rfl
  have hfmt : pyFormat "echo hello \x7bname\x7d" [("name", "World")] = .ok "echo hello World" := rfl
  have h1 : _run_skill rt greetManager fs ⟨"greet", a⟩ = .error (.nameError "stderror") := by
    simp only [_run_skill, hj, hlk, runHandler, hfmt]
    simp [exec_command, dictLookup, hs, evalFString, Except.map]
  have h2 : (run_skill rt greetManager fs ⟨"greet", a⟩).1 = "Error: name \x27stderror\x27 is not defined" := by
    simp only [run_skill, h1, pyStrErr]
    rfl
  refine ⟨rfl, rfl, rfl, h2, ?_⟩
  rw [h2]
  decide

/-- Witness for C3: a concrete runtime whose shell echoes and whose
decoder produces the `greet` arguments. -/
theorem greet_end_to_end_witness :
    (run_skill ⟨fun _ => ⟨0, "hello World\n", ""⟩, fun _ => .ok [("name", "World")]⟩
        greetManager [] ⟨"greet", "x"⟩).1 = "Error: name \x27stderror\x27 is not defined" :=
  (greet_end_to_end ⟨fun _ => ⟨0, "hello World\n", ""⟩, fun _ => .ok [("name", "World")]⟩
    "x" [] rfl rfl).2.2.2.1

/-- Dict membership agrees with membership in the key list. -/
theorem dictMem_iff {α : Type} (d : List (String × α)) (k : String) :
    dictMem d k = true ↔ k ∈ d.map Prod.fst := by
  simp only [dictMem, List.any_eq_true, List.mem_map, beq_iff_eq]

/-- A successful registration appends exactly one entry, keyed by the
schema's function name, and only happens when that name was absent. -/
theorem _register_skill_ok (skills : List (String × Skill)) (tc : ToolCall) (f : Handler)
    (out : List (String × Skill)) (h : _register_skill skills tc f = .ok out) :
    dictMem skills tc.function.name = false ∧
    out = skills ++
      [(tc.function.name,
        { name := tc.function.name, description := tc.function.description,
          tool_call := tc, run := f })] := by
  cases hm : dictMem skills tc.function.name with
  | true => simp [_register_skill, hm] at h
  | false =>
    simp only [_register_skill, hm, Bool.false_eq_true, if_false] at h
    injection h with h
    exact ⟨rfl, h.symm⟩

/-- `parse_skill` names the resulting schema after the directory. -/
theorem parse_skill_name (dirName : String) (md : String) (ps : ParsedSkill)
    (h : parse_skill dirName md = .ok ps) : ps.tool_call.function.name = dirName := by
  simp only [parse_skill] at h
  split at h
  · cases h
  · split at h
    · cases h
    · split at h
      · cases h
      · split at h
        · cases h
        · injection h with h
          subst h
          rfl

/-- One loader step either skips the entry or appends a single skill
keyed (and named) after the directory. -/
theorem loadSkillDir_ok (skills : List (String × Skill)) (e : DirEntry)
    (out : List (String × Skill)) (h : loadSkillDir skills e = .ok out) :
    out = skills ∨
    ∃ sk : Skill, dictMem skills e.name = false ∧
      out = skills ++ [(e.name, sk)] ∧ e.name = sk.tool_call.function.name := by
  simp only [loadSkillDir] at h
  split at h
  · injection h with h
    exact .inl h.symm
  · split at h
    · injection h with h
      exact .inl h.symm
    · rename_i md hmd
      split at h
      · cases h
      · rename_i parsed hp
        obtain ⟨hm, rfl⟩ := _register_skill_ok skills parsed.tool_call (.templated parsed.template) out h
        have hn := parse_skill_name e.name md parsed hp
        refine .inr ⟨{ name := parsed.tool_call.function.name,
                       description := parsed.tool_call.function.description,
                       tool_call := parsed.tool_call,
                       run := .templated parsed.template }, ?_, ?_, hn.symm⟩
        · rwa [hn] at hm
        · rw [hn]

/-- The loader loop appends a block of skills whose keys form a
sublist of the entry names, each key equal to its schema name. -/
theorem loadEntries_ok (es : List DirEntry) (skills out : List (String × Skill))
    (h : loadEntries skills es = .ok out) :
    ∃ add, out = skills ++ add ∧
      List.Sublist (add.map Prod.fst) (es.map DirEntry.name) ∧
      (∀ p ∈ add, p.1 = p.2.tool_call.function.name) := by
  induction es generalizing skills with
  | nil =>
    simp only [loadEntries] at h
    injection h with h
    exact ⟨[], by simp [h.symm], by simp, by simp⟩
  | cons e es ih =>
    simp only [loadEntries] at h
    cases hd : loadSkillDir skills e with
    | error err => rw [hd] at h; cases h
    | ok s1 =>
      rw [hd] at h
      obtain ⟨add, rfl, hsub, hnames⟩ := ih s1 h
      rcases loadSkillDir_ok skills e s1 hd with rfl | ⟨sk, hmem, rfl, hname⟩
      · exact ⟨add, rfl, hsub.trans (List.sublist_cons_self _ _), hnames⟩
      · refine ⟨(e.name, sk) :: add, by simp, ?_, ?_⟩
        · simpa using List.Sublist.cons₂ e.name hsub
        · intro p hp
          rcases List.mem_cons.mp hp with rfl | hp
          · exact hname
          · exact hnames p hp

/-- Registration preserves distinctness of the registered names. -/
theorem _register_skill_nodup (skills out : List (String × Skill)) (tc : ToolCall) (f : Handler)
    (hn : (skills.map Prod.fst).Nodup) (h : _register_skill skills tc f = .ok out) :
    (out.map Prod.fst).Nodup := by
  obtain ⟨hm, rfl⟩ := _register_skill_ok skills tc f out h
  have hnotmem : tc.function.name ∉ skills.map Prod.fst := by
    intro hc
    have := (dictMem_iff skills tc.function.name).mpr hc
    rw [hm] at this
    cases this
  simp [List.nodup_append, hn, hnotmem]

/-- One loader step preserves distinctness of the registered names. -/
theorem loadSkillDir_nodup (skills out : List (String × Skill)) (e : DirEntry)
    (hn : (skills.map Prod.fst).Nodup) (h : loadSkillDir skills e = .ok out) :
    (out.map Prod.fst).Nodup := by
  rcases loadSkillDir_ok skills e out h with rfl | ⟨sk, hmem, rfl, _⟩
  · exact hn
  · have hnotmem : e.name ∉ skills.map Prod.fst := by
      intro hc
      have := (dictMem_iff skills e.name).mpr hc
      rw [hmem] at this
      cases this
    simp [List.nodup_append, hn, hnotmem]

/-- The loader loop preserves distinctness of the registered names. -/
theorem loadEntries_nodup (es : List DirEntry) (skills out : List (String × Skill))
    (hn : (skills.map Prod.fst).Nodup) (h : loadEntries skills es = .ok out) :
    (out.map Prod.fst).Nodup := by
  induction es generalizing skills with
  | nil =>
    simp only [loadEntries] at h
    injection h with h
    exact h ▸ hn
  | cons e es ih =>
    simp only [loadEntries] at h
    cases hd : loadSkillDir skills e with
    | error err => rw [hd] at h; cases h
    | ok s1 =>
      rw [hd] at h
      exact ih s1 (loadSkillDir_nodup skills s1 e hn hd) h

/-- C7: registering a schema whose name is already present fails with
`Duplicate skill: <name>` (in particular a skill directory named after a
built-in makes the whole load fail), so after every successful load the
registered names are pairwise distinct. -/
theorem register_duplicate_fails :
    (∀ (skills : List (String × Skill)) (tc : ToolCall) (f : Handler),
       tc.function.name ∈ skills.map Prod.fst →
       _register_skill skills tc f = .error (.valueError ("Duplicate skill: " ++ tc.function.name))) ∧
    SkillManager.init [{ name := "exec_command", isDir := true, skillMd := some greetSkillMd }]
      = .error (.valueError ("Duplicate skill: " ++ "exec_command")) ∧
    (∀ (entries : List DirEntry) (sm : SkillManager),
       SkillManager.init entries = .ok sm → (sm._skills.map Prod.fst).Nodup) := by
  refine ⟨?_, rfl, ?_⟩
  · intro skills tc f hmem
    have hm := (dictMem_iff skills tc.function.name).mpr hmem
    simp [_register_skill, hm]
  · intro entries sm h
    simp only [SkillManager.init] at h
    split at h
    · cases h
    · rename_i s0 h0
      split at h
      · cases h
      · rename_i s1 h1
        split at h
        · cases h
        · rename_i s2 h2
          split at h
          · cases h
          · rename_i s3 h3
            injection h with h
            subst h
            have hn0 := loadEntries_nodup (sortEntries entries) [] s0 (by simp) h0
            have hn1 := _register_skill_nodup s0 s1 read_file_tool_call .read_file hn0 h1
            have hn2 := _register_skill_nodup s1 s2 write_file_tool_call .write_file hn1 h2
            exact _register_skill_nodup s2 s3 exec_command_tool_call .exec_command hn2 h3

/-- Witness for C7: a duplicate registration of `read_file` fails, and
the built-in-only registry has distinct names. -/
theorem register_duplicate_fails_witness :
    _register_skill
        [("read_file",
          { name := "read_file", description := "Read and return the contents of a file.",
            tool_call := read_file_tool_call, run := .read_file })]
        read_file_tool_call .read_file
      = .error (.valueError ("Duplicate skill: " ++ "read_file")) ∧
    (emptyManager._skills.map Prod.fst).Nodup :=
  ⟨register_duplicate_fails.1 _ read_file_tool_call .read_file (by decide),
   register_duplicate_fails.2.2 [] emptyManager rfl⟩

/-- Membership in an ordered insert. -/
theorem mem_orderedInsertEntry (e x : DirEntry) (l : List DirEntry) :
    x ∈ orderedInsertEntry e l ↔ x = e ∨ x ∈ l := by
  induction l with
  | nil => simp [orderedInsertEntry]
  | cons y ys ih =>
    simp only [orderedInsertEntry]
    split
    · simp [List.mem_cons]
    · simp only [List.mem_cons, ih]
      tauto

/-- Ordered insertion preserves sortedness by name. -/
theorem pairwise_orderedInsertEntry (e : DirEntry) (l : List DirEntry)
    (h : l.Pairwise (fun a b => a.name ≤ b.name)) :
    (orderedInsertEntry e l).Pairwise (fun a b => a.name ≤ b.name) := by
  induction l with
  | nil => simp [orderedInsertEntry]
  | cons x xs ih =>
    rcases List.pairwise_cons.mp h with ⟨hx, hxs⟩
    rw [orderedInsertEntry]
    split
    · rename_i hle
      refine List.pairwise_cons.mpr ⟨?_, h⟩
      intro b hb
      rcases List.mem_cons.mp hb with rfl | hb
      · exact hle
      · exact le_trans hle (hx b hb)
    · rename_i hgt
      refine List.pairwise_cons.mpr ⟨?_, ih hxs⟩
      intro b hb
      rcases (mem_orderedInsertEntry e b xs).mp hb with rfl | hb
      · exact le_of_not_le hgt
      · exact hx b hb

/-- `sortEntries` sorts by name. -/
theorem sortEntries_pairwise (l : List DirEntry) :
    (sortEntries l).Pairwise (fun a b => a.name ≤ b.name) := by
  induction l with
  | nil => simp [sortEntries]
  | cons e es ih => exact pairwise_orderedInsertEntry e (sortEntries es) ih

/-- C8: on a successful load the exported schema list is the templated
skills — whose names are in ascending lexicographic order of the skill
directory names — followed by the three built-ins in the fixed order
`read_file`, `write_file`, `exec_command`. -/
theorem get_tool_calls_order (entries : List DirEntry) (sm : SkillManager)
    (h : SkillManager.init entries = .ok sm) :
    ∃ ts : List ToolCall,
      get_tool_calls sm = ts ++ [read_file_tool_call, write_file_tool_call, exec_command_tool_call] ∧
      (ts.map (fun tc => tc.function.name)).Pairwise (fun a b : String => a ≤ b) := by
  simp only [SkillManager.init] at h
  split at h
  · cases h
  · rename_i s0 h0
    split at h
    · cases h
    · rename_i s1 h1
      split at h
      · cases h
      · rename_i s2 h2
        split at h
        · cases h
        · rename_i s3 h3
          injection h with h
          subst h
          obtain ⟨_, rfl⟩ := _register_skill_ok s0 read_file_tool_call .read_file s1 h1
          obtain ⟨_, rfl⟩ := _register_skill_ok _ write_file_tool_call .write_file s2 h2
          obtain ⟨_, rfl⟩ := _register_skill_ok _ exec_command_tool_call .exec_command s3 h3
          obtain ⟨add, hadd, hsub, hnm⟩ := loadEntries_ok (sortEntries entries) [] s0 h0
          rw [List.nil_append] at hadd
          subst s0
          refine ⟨add.map (fun p => p.2.tool_call), ?_, ?_⟩
          · simp [get_tool_calls]
          · have hmapeq : add.map (fun p => p.2.tool_call.function.name) = add.map Prod.fst :=
              (List.map_congr_left (fun p hp => (hnm p hp).symm))
            have hsorted : ((sortEntries entries).map DirEntry.name).Pairwise
                (fun a b : String => a ≤ b) :=
              List.pairwise_map.mpr (sortEntries_pairwise entries)
            rw [List.map_map]
            have hpw : (add.map Prod.fst).Pairwise (fun a b : String => a ≤ b) :=
              List.Pairwise.sublist hsub hsorted
            have hgoal := hmapeq.symm ▸ hpw
            simpa [Function.comp] using hgoal

/-- Witness for C8: the registry loaded from the `greet` directory. -/
theorem get_tool_calls_order_witness :
    ∃ ts : List ToolCall,
      get_tool_calls greetManager
        = ts ++ [read_file_tool_call, write_file_tool_call, exec_command_tool_call] ∧
      (ts.map (fun tc => tc.function.name)).Pairwise (fun a b : String => a ≤ b) :=
  get_tool_calls_order [greetEntry] greetManager rfl

/-- Unfolding `joinSpace` on a list with at least two elements. -/
theorem joinSpace_cons_cons (s t : String) (ts : List String) :
    joinSpace (s :: t :: ts) = s ++ " " ++ joinSpace (t :: ts) := rfl

/-- `str.strip()` gives the empty string exactly on whitespace-only
input. -/
theorem trimChars_eq_nil_iff (cs : List Char) :
    trimChars cs = [] ↔ ∀ x ∈ cs, isPySpace x := by
  simp only [trimChars, List.reverse_eq_nil_iff, List.dropWhile_eq_nil_iff, List.mem_reverse]
  constructor
  · intro h x hx
    have hx' : x ∈ (cs.takeWhile isPySpace ++ cs.dropWhile isPySpace) := by
      rw [List.takeWhile_append_dropWhile]
      exact hx
    rcases List.mem_append.mp hx' with h1 | h1
    · exact List.mem_takeWhile_imp h1
    · exact h x h1
  · intro h x hx
    exact h x ((List.dropWhile_sublist _).subset hx)

/-- Splitting on newlines yields at least one (possibly empty) line. -/
theorem splitLines_ne_nil (cs : List Char) : splitLines cs ≠ [] := by
  cases cs with
  | nil => simp [splitLines]
  | cons c cs =>
    simp only [splitLines]
    split
    · simp
    · split <;> simp

/-- Every line of the split is whitespace-only exactly when the whole
input is whitespace-only. -/
theorem splitLines_all_space (cs : List Char) :
    ((splitLines cs).all (fun l => l.all isPySpace)) = cs.all isPySpace := by
  induction cs with
  | nil => simp [splitLines]
  | cons c cs ih =>
    simp only [splitLines]
    by_cases hc : c = '\n'
    · subst hc
      rw [if_pos rfl]
      simp only [List.all_cons, ih]
      have : isPySpace '\n' = true := by decide
      simp [this]
    · rw [if_neg hc]
      cases hr : splitLines cs with
      | nil => exact absurd hr (splitLines_ne_nil cs)
      | cons l ls =>
        rw [hr] at ih
        simp only [List.all_cons] at ih ⊢
        rw [← ih]
        simp [Bool.and_assoc]

/-- No line produced by the newline split contains a newline. -/
theorem mem_splitLines_no_newline (cs : List Char) (l : List Char) (hl : l ∈ splitLines cs) :
    '\n' ∉ l := by
  induction cs generalizing l with
  | nil =>
    simp only [splitLines, List.mem_singleton] at hl
    subst hl
    simp
  | cons c cs ih =>
    simp only [splitLines] at hl
    by_cases hc : c = '\n'
    · subst hc
      rw [if_pos rfl] at hl
      rcases List.mem_cons.mp hl with rfl | hl
      · simp
      · exact ih l hl
    · rw [if_neg hc] at hl
      cases hr : splitLines cs with
      | nil => exact absurd hr (splitLines_ne_nil cs)
      | cons l0 ls =>
        rw [hr] at hl
        rcases List.mem_cons.mp hl with rfl | hl
        · intro hmem
          rcases List.mem_cons.mp hmem with h1 | h1
          · exact hc h1.symm
          · exact ih l0 (by rw [hr]; exact List.mem_cons_self _ _) h1
        · exact ih l (by rw [hr]; exact List.mem_cons.mpr (.inr hl))

/-- Characters surviving `str.strip()` come from the original string. -/
theorem mem_trimChars (cs : List Char) (x : Char) (hx : x ∈ trimChars cs) : x ∈ cs := by
  simp only [trimChars, List.mem_reverse] at hx
  have h1 := (List.dropWhile_sublist _).subset hx
  have h2 := List.mem_reverse.mp h1
  exact (List.dropWhile_sublist _).subset h2

/-- Characters of a space-join come from the parts or are spaces. -/
theorem mem_joinSpace (l : List String) (x : Char) (hx : x ∈ (joinSpace l).data) :
    x = ' ' ∨ ∃ s ∈ l, x ∈ s.data := by
  induction l with
  | nil => simp [joinSpace] at hx
  | cons s rest ih =>
    cases rest with
    | nil =>
      right
      exact ⟨s, List.mem_singleton_self s, hx⟩
    | cons t ts =>
      rw [joinSpace_cons_cons, String.data_append, String.data_append] at hx
      rcases List.mem_append.mp hx with h1 | h1
      · rcases List.mem_append.mp h1 with h2 | h2
        · exact .inr ⟨s, List.mem_cons_self _ _, h2⟩
        · left
          simpa using h2
      · rcases ih h1 with h2 | ⟨u, hu, h3⟩
        · exact .inl h2
        · exact .inr ⟨u, List.mem_cons.mpr (.inr hu), h3⟩

/-- The blank-line filter empties exactly on whitespace-only input. -/
theorem stripNonblankLines_eq_nil_iff (s : String) :
    stripNonblankLines s = [] ↔ s.data.all isPySpace = true := by
  constructor
  · intro h
    rw [← splitLines_all_space, List.all_eq_true]
    intro l hl
    simp only [stripNonblankLines, List.map_eq_nil_iff, List.filter_eq_nil_iff] at h
    have h2 := h (trimChars l) (List.mem_map_of_mem trimChars hl)
    have h3 : trimChars l = [] := List.isEmpty_iff.mp (by simpa using h2)
    rw [List.all_eq_true]
    exact (trimChars_eq_nil_iff l).mp h3
  · intro h
    have hall := (splitLines_all_space s.data).trans h
    simp only [stripNonblankLines, List.map_eq_nil_iff, List.filter_eq_nil_iff]
    intro a ha
    rcases List.mem_map.mp ha with ⟨l, hl, rfl⟩
    have hsp : ∀ x ∈ l, isPySpace x := by
      rw [← List.all_eq_true]
      exact (List.all_eq_true.mp hall l hl)
    have : trimChars l = [] := (trimChars_eq_nil_iff l).mpr hsp
    simp [this]

/-- C9: `parse_description` fails exactly on a whitespace-only body (or,
vacuously, when the joined result would be empty), and on success
returns the trimmed single-space join of the non-blank stripped lines:
a non-empty string containing no newline. -/
theorem parse_description_spec (s : String) :
    ((∃ e, parse_description s = .error e) ↔
      (s.data.all isPySpace = true ∨ pystrip (joinSpace (stripNonblankLines s)) = "")) ∧
    (∀ r, parse_description s = .ok r →
      r = pystrip (joinSpace (stripNonblankLines s)) ∧ r ≠ "" ∧ '\n' ∉ r.data) := by
  cases hsnb : stripNonblankLines s with
  | nil =>
    constructor
    · constructor
      · intro _
        exact .inl ((stripNonblankLines_eq_nil_iff s).mp hsnb)
      · intro _
        rw [parse_description, hsnb]
        exact ⟨.valueError "Description section is empty", rfl⟩
    · intro r hr
      rw [parse_description, hsnb] at hr
      cases hr
  | cons l ls =>
    constructor
    · constructor
      · intro ⟨e, he⟩
        simp only [parse_description, hsnb] at he
        split at he
        · rename_i hres
          exact .inr hres
        · cases he
      · intro hor
        rcases hor with hsp | hres
        · have := (stripNonblankLines_eq_nil_iff s).mpr hsp
          rw [hsnb] at this
          cases this
        · refine ⟨.valueError "Description section is empty", ?_⟩
          simp only [parse_description, hsnb, hres]
          rfl
    · intro r hr
      simp only [parse_description, hsnb] at hr
      split at hr
      · cases hr
      · rename_i hres
        injection hr with hr
        subst hr
        refine ⟨rfl, hres, ?_⟩
        intro hmem
        have hmem' : '\n' ∈ trimChars (joinSpace (l :: ls)).data := hmem
        have h1 := mem_trimChars _ _ hmem'
        rcases mem_joinSpace _ _ h1 with h2 | ⟨str, hstr, h3⟩
        · cases h2
        · rw [← hsnb] at hstr
          simp only [stripNonblankLines, List.mem_map] at hstr
          rcases hstr with ⟨l1, hl1, rfl⟩
          rcases List.mem_map.mp (List.mem_of_mem_filter hl1) with ⟨l0, hl0, rfl⟩
          exact mem_splitLines_no_newline s.data l0 hl0 (mem_trimChars _ _ h3)

/-- Witness for C9: a two-line description body. -/
theorem parse_description_spec_witness :
    "Use pandoc to convert" ≠ "" ∧ '\n' ∉ "Use pandoc to convert".data ∧
    (∃ e, parse_description "  \n \x0c " = .error e) :=
  ⟨((parse_description_spec " Use pandoc \nto convert ").2 "Use pandoc to convert" rfl).2.1,
   ((parse_description_spec " Use pandoc \nto convert ").2 "Use pandoc to convert" rfl).2.2,
   (parse_description_spec "  \n \x0c ").1.mpr (.inl (by decide))⟩

/-- The module doctest of `split_markdown_by_titles`, replayed against
the embedding. -/
example :
    split_markdown_by_titles
        "\n \n# TITLE \nSample Skill\n\n## usage\nls \x7bdir\x7d\nlist files of dir.\n\n## Meta \nCopyright@2026\nhttps://mini-agent.puppylab.org\n"
      = [("title", "Sample Skill"), ("usage", "ls \x7bdir\x7d\nlist files of dir."),
         ("meta", "Copyright@2026\nhttps://mini-agent.puppylab.org")] := rfl

/-- The module doctest of `parse_description`, replayed. -/
example : parse_description "\n Use pandoc to convert \n between the formats \n"
    = .ok "Use pandoc to convert between the formats" := rfl

/-- The module doctest of `parse_usage` (its error case), replayed. -/
example :
    parse_usage "\n pandoc -f \x7binput_format\x7d \n - x: y"
      = .error (.valueError "Missing description for parameter: input_format") := rfl

/-- The module doctest of `parse_skill`, replayed on the greet skill. -/
example :
    (parse_skill "greet" greetSkillMd).map (fun ps => ps.template) = .ok "echo hello \x7bname\x7d" := rfl
